import Mathlib

/-!
Verification development for the native shim of com.unity.logging
(Runtime/cpp~): the handle-based spinlock registry (Spinlock.cpp), the
timestamp formatters (TimeStamp.cpp) and the console writer
(DotsRuntimePrintWrapper.cpp), embedded shallowly and sequentially.

Modelling conventions:
- int64_t / int values are Lean Int (C signed overflow is undefined
  behaviour and outside the modelled fragment); C integer division and
  remainder truncate toward zero, hence Int.tdiv / Int.tmod.
- std::unordered_map(int64_t, atomic_flag) is an association list
  List (Int, Bool); a default-constructed atomic_flag is modelled as
  clear (false).
- std::terminate and undefined behaviour (dereferencing a null pointer)
  are explicit outcome constructors, never silent.
- External C library routines called by the code (localtime, snprintf,
  printf, stdio buffering) are modelled by their documented C semantics;
  localtime is an explicit oracle parameter because it may fail.
-/

/-- Mirror of unordered_map find on the handle table: first entry whose key
matches, if any. -/
def mapFind (t : List (Int × Bool)) (k : Int) : Option Bool :=
  match t with
  | [] => none
  | p :: rest => if p.1 = k then some p.2 else mapFind rest k

/-- Mirror of unordered_map emplace: inserts only when the key is absent,
otherwise leaves the table unchanged (emplace does not overwrite). -/
def mapEmplace (t : List (Int × Bool)) (k : Int) (v : Bool) : List (Int × Bool) :=
  match mapFind t k with
  | some _ => t
  | none => (k, v) :: t

/-- Overwrite the flag stored under a key, leaving every other entry as is
(models test_and_set / clear on the atomic_flag held in the table). -/
def mapSet (t : List (Int × Bool)) (k : Int) (v : Bool) : List (Int × Bool) :=
  t.map (fun p => if p.1 = k then (k, v) else p)

/-- Mirror of unordered_map erase by key: removes the entries with that key,
a no-op when the key is absent. -/
def mapErase (t : List (Int × Bool)) (k : Int) : List (Int × Bool) :=
  t.filter (fun p => p.1 != k)

/-- The registry globals of Spinlock.cpp: s_NextKey and s_SpinLockMap. -/
structure Registry where
  nextKey : Int
  table : List (Int × Bool)
deriving DecidableEq

/-- Initial state: s_NextKey is statically initialised to 1 and the map is
empty. -/
def initRegistry : Registry := { nextKey := 1, table := [] }

/-- Sequential outcome of a registry lock operation: fatal models
std::terminate (RetrieveLockFromHandle on a missing handle), diverge models
an infinite spin in a sequential execution, ok carries the returned value
and the post state. -/
inductive LockResult (α : Type) where
  | fatal : LockResult α
  | diverge : LockResult α
  | ok : α → Registry → LockResult α
deriving DecidableEq

/-- RetrieveLockFromHandle: looks the handle up in s_SpinLockMap; none means
the source calls std::terminate. -/
def RetrieveLockFromHandle (s : Registry) (handle : Int) : Option Bool :=
  mapFind s.table handle

/-- CreateSpinLockImpl: pre-increments s_NextKey, emplaces a
default-constructed (clear) flag under the new key, returns the key. -/
def CreateSpinLockImpl (s : Registry) : Int × Registry :=
  let key := s.nextKey + 1
  (key, { nextKey := key, table := mapEmplace s.table key false })

/-- LockImpl: spins on test_and_set until acquired. Sequentially: missing
handle is fatal; an already-set flag spins forever (diverge); a clear flag
is set and true is returned. -/
def LockImpl (handle : Int) (s : Registry) : LockResult Bool :=
  match RetrieveLockFromHandle s handle with
  | none => LockResult.fatal
  | some true => LockResult.diverge
  | some false => LockResult.ok true { s with table := mapSet s.table handle true }

/-- TryLockImpl: one test_and_set; returns whether the previous value was
false (the caller acquired the lock); missing handle is fatal. -/
def TryLockImpl (handle : Int) (s : Registry) : LockResult Bool :=
  match RetrieveLockFromHandle s handle with
  | none => LockResult.fatal
  | some flag =>
      LockResult.ok (flag == false) { s with table := mapSet s.table handle true }

/-- UnlockImpl: clears the flag unconditionally; missing handle is fatal. -/
def UnlockImpl (handle : Int) (s : Registry) : LockResult Unit :=
  match RetrieveLockFromHandle s handle with
  | none => LockResult.fatal
  | some _ => LockResult.ok () { s with table := mapSet s.table handle false }

/-- DestroySpinLockImpl: erases the handle from the map. Note the source
calls erase directly, without RetrieveLockFromHandle, so a missing handle
is simply a no-op erase and the call returns normally. -/
def DestroySpinLockImpl (handle : Int) (s : Registry) : Registry :=
  { s with table := mapErase s.table handle }

/-- A step of a create/destroy call sequence against the registry. -/
inductive RegistryOp where
  | create : RegistryOp
  | destroy : Int → RegistryOp
deriving DecidableEq

/-- Runs a sequence of CreateSpinLock and DestroySpinLock calls, returning
the final registry state and the list of handles the Create calls returned,
in call order. -/
def runOps (ops : List RegistryOp) (s : Registry) : Registry × List Int :=
  match ops with
  | [] => (s, [])
  | RegistryOp.create :: rest =>
      let c := CreateSpinLockImpl s
      let r := runOps rest c.2
      (r.1, c.1 :: r.2)
  | RegistryOp.destroy h :: rest => runOps rest (DestroySpinLockImpl h s)

/-- Handles returned by the Create calls of a sequence started from the
initial registry state. -/
def opHandles (ops : List RegistryOp) : List Int := (runOps ops initRegistry).2

/-! Helper lemmas about the table model. -/

theorem mapFind_eq_none_iff (t : List (Int × Bool)) (k : Int) :
    mapFind t k = none ↔ ∀ p ∈ t, p.1 ≠ k := by
  induction t with
  | nil => simp [mapFind]
  | cons p rest ih =>
      by_cases hp : p.1 = k
      · simp [mapFind, hp]
      · simp [mapFind, hp, ih]

theorem mapErase_of_absent (t : List (Int × Bool)) (k : Int)
    (habs : mapFind t k = none) : mapErase t k = t := by
  rw [mapFind_eq_none_iff] at habs
  unfold mapErase
  rw [List.filter_eq_self]
  intro p hp
  simpa using habs p hp

theorem mapFind_emplace_self (t : List (Int × Bool)) (k : Int) (v : Bool)
    (habs : mapFind t k = none) : mapFind (mapEmplace t k v) k = some v := by
  unfold mapEmplace
  rw [habs]
  simp [mapFind]

theorem mapFind_mapSet_self (t : List (Int × Bool)) (k : Int) (v b : Bool)
    (hmem : mapFind t k = some b) : mapFind (mapSet t k v) k = some v := by
  induction t with
  | nil => simp [mapFind] at hmem
  | cons p rest ih =>
      by_cases hp : p.1 = k
      · simp [mapFind, mapSet, hp]
      · rw [mapFind, if_neg hp] at hmem
        show mapFind ((if p.1 = k then (k, v) else p) :: mapSet rest k v) k = some v
        rw [if_neg hp, mapFind, if_neg hp]
        exact ih hmem

theorem mapFind_mapSet_ne (t : List (Int × Bool)) (k k2 : Int) (v : Bool)
    (hne : k ≠ k2) : mapFind (mapSet t k2 v) k = mapFind t k := by
  induction t with
  | nil => simp [mapFind, mapSet]
  | cons p rest ih =>
      by_cases hp : p.1 = k2
      · have hpk : p.1 ≠ k := by rw [hp]; exact fun h => hne h.symm
        simp only [mapSet, List.map_cons, if_pos hp]
        rw [mapFind, mapFind]
        simp only [if_neg hpk, if_neg (fun h => hne h.symm : ¬k2 = k)]
        exact ih
      · simp only [mapSet, List.map_cons, if_neg hp]
        rw [mapFind, mapFind]
        by_cases hpk : p.1 = k
        · simp [hpk]
        · simp only [if_neg hpk]
          exact ih

theorem mapFind_mapSet_isSome (t : List (Int × Bool)) (k k2 : Int) (v : Bool) :
    (mapFind (mapSet t k2 v) k).isSome = (mapFind t k).isSome := by
  by_cases hk : k = k2
  · subst hk
    cases hmem : mapFind t k with
    | none =>
        have : mapFind (mapSet t k v) k = none := by
          rw [mapFind_eq_none_iff] at hmem ⊢
          intro p hp
          rcases List.mem_map.mp hp with ⟨q, hq, hqe⟩
          rw [if_neg (hmem q hq)] at hqe
          rw [← hqe]
          exact hmem q hq
        simp [this, hmem]
    | some b => simp [mapFind_mapSet_self t k v b hmem, hmem]
  · rw [mapFind_mapSet_ne t k k2 v hk]

theorem TryLockImpl_of_find (s : Registry) (k : Int) (b : Bool)
    (hfind : RetrieveLockFromHandle s k = some b) :
    TryLockImpl k s =
      LockResult.ok (b == false) { s with table := mapSet s.table k true } := by
  unfold TryLockImpl
  rw [hfind]

theorem UnlockImpl_of_find (s : Registry) (k : Int) (b : Bool)
    (hfind : RetrieveLockFromHandle s k = some b) :
    UnlockImpl k s = LockResult.ok () { s with table := mapSet s.table k false } := by
  unfold UnlockImpl
  rw [hfind]

theorem runOps_append (a b : List RegistryOp) (s : Registry) :
    runOps (a ++ b) s =
      ((runOps b (runOps a s).1).1, (runOps a s).2 ++ (runOps b (runOps a s).1).2) := by
  induction a generalizing s with
  | nil => simp [runOps]
  | cons op rest ih =>
      cases op with
      | create => simp [runOps, ih]
      | destroy k => simp [runOps, ih]

theorem runOps_sorted_lt (ops : List RegistryOp) :
    ∀ s : Registry, List.Sorted (fun a b => a < b) (runOps ops s).2 ∧
      ∀ h ∈ (runOps ops s).2, s.nextKey < h := by
  induction ops with
  | nil => intro s; simp [runOps]
  | cons op rest ih =>
      intro s
      cases op with
      | create =>
          obtain ⟨ihs, ihb⟩ := ih (CreateSpinLockImpl s).2
          have hnk : (CreateSpinLockImpl s).2.nextKey = s.nextKey + 1 := rfl
          rw [hnk] at ihb
          have hunf : (runOps (RegistryOp.create :: rest) s).2 =
              (CreateSpinLockImpl s).1 :: (runOps rest (CreateSpinLockImpl s).2).2 := rfl
          have hc1 : (CreateSpinLockImpl s).1 = s.nextKey + 1 := rfl
          constructor
          · rw [hunf, List.sorted_cons]
            refine ⟨?_, ihs⟩
            intro b hb
            have := ihb b hb
            rw [hc1]
            omega
          · intro h hh
            rw [hunf] at hh
            rcases List.mem_cons.mp hh with h1 | h2
            · rw [h1, hc1]; omega
            · have := ihb h h2; omega
      | destroy k =>
          obtain ⟨ihs, ihb⟩ := ih (DestroySpinLockImpl k s)
          exact ⟨ihs, ihb⟩

/-- C1: across any sequence of CreateSpinLock and DestroySpinLock calls from
the initial state, the handles returned by the Create calls are strictly
increasing (hence pairwise distinct), and once a handle's token has been
destroyed that handle is never returned by a later Create. -/
theorem createSpinLock_handles_distinct_mono (ops : List RegistryOp) :
    List.Sorted (fun a b => a < b) (opHandles ops) ∧ (opHandles ops).Nodup ∧
    ∀ ops1 h ops2, ops = ops1 ++ RegistryOp.destroy h :: ops2 →
      h ∈ opHandles ops1 →
      h ∉ (runOps ops2 (runOps (ops1 ++ [RegistryOp.destroy h]) initRegistry).1).2 := by
  obtain ⟨hsorted, -⟩ := runOps_sorted_lt ops initRegistry
  have hnodup : (opHandles ops).Nodup :=
    List.Pairwise.imp (fun hab => ne_of_lt hab) hsorted
  refine ⟨hsorted, hnodup, ?_⟩
  intro ops1 h ops2 heq hmem
  subst heq
  have hsplit : opHandles (ops1 ++ RegistryOp.destroy h :: ops2) =
      opHandles ops1 ++
        (runOps ops2 (DestroySpinLockImpl h (runOps ops1 initRegistry).1)).2 := by
    unfold opHandles
    rw [runOps_append]
    rfl
  rw [hsplit] at hnodup
  have hdisj := (List.nodup_append.mp hnodup).2.2
  have hstate : (runOps (ops1 ++ [RegistryOp.destroy h]) initRegistry).1 =
      DestroySpinLockImpl h (runOps ops1 initRegistry).1 := by
    rw [runOps_append]
    rfl
  rw [hstate]
  exact fun hmem2 => hdisj hmem hmem2

/-- C1 witness: in the sequence Create, Destroy 2, Create, the destroyed
handle 2 is not returned by the later Create. -/
theorem createSpinLock_handles_distinct_mono_witness :
    2 ∉ (runOps [RegistryOp.create]
        (runOps ([RegistryOp.create] ++ [RegistryOp.destroy 2]) initRegistry).1).2 :=
  (createSpinLock_handles_distinct_mono
      [RegistryOp.create, RegistryOp.destroy 2, RegistryOp.create]).2.2
    [RegistryOp.create] 2 [RegistryOp.create] rfl (by decide)

/-- C2: a handle that is not present in the table makes Lock, TryLock and
Unlock all hit std::terminate in RetrieveLockFromHandle, never returning a
value or error code. -/
theorem unknown_handle_lock_ops_fatal (s : Registry) (hdl : Int)
    (habs : RetrieveLockFromHandle s hdl = none) :
    LockImpl hdl s = LockResult.fatal ∧ TryLockImpl hdl s = LockResult.fatal ∧
      UnlockImpl hdl s = LockResult.fatal := by
  unfold LockImpl TryLockImpl UnlockImpl
  rw [habs]
  exact ⟨rfl, rfl, rfl⟩

/-- C2 witness: handle 0 was never issued by the initial registry, and all
three lock operations on it are fatal. -/
theorem unknown_handle_lock_ops_fatal_witness :
    LockImpl 0 initRegistry = LockResult.fatal ∧
      TryLockImpl 0 initRegistry = LockResult.fatal ∧
      UnlockImpl 0 initRegistry = LockResult.fatal :=
  unknown_handle_lock_ops_fatal initRegistry 0 rfl

/-- C3: sequentially, a freshly created token is unlocked, so the first
TryLock on its handle returns true; a second TryLock while it is locked
returns false; and after Unlock a subsequent TryLock returns true again. -/
theorem freshCreate_trylock_cycle (s : Registry)
    (hfresh : RetrieveLockFromHandle s (s.nextKey + 1) = none) :
    ∃ h s1 s2 s3 s4 s5,
      CreateSpinLockImpl s = (h, s1) ∧
      TryLockImpl h s1 = LockResult.ok true s2 ∧
      TryLockImpl h s2 = LockResult.ok false s3 ∧
      UnlockImpl h s3 = LockResult.ok () s4 ∧
      TryLockImpl h s4 = LockResult.ok true s5 := by
  have e1 : mapFind (mapEmplace s.table (s.nextKey + 1) false) (s.nextKey + 1) =
      some false := mapFind_emplace_self s.table (s.nextKey + 1) false hfresh
  have e2 := mapFind_mapSet_self (mapEmplace s.table (s.nextKey + 1) false)
    (s.nextKey + 1) true false e1
  have e3 := mapFind_mapSet_self _ (s.nextKey + 1) true true e2
  have e4 := mapFind_mapSet_self _ (s.nextKey + 1) false true e3
  refine ⟨s.nextKey + 1,
    { nextKey := s.nextKey + 1,
      table := mapEmplace s.table (s.nextKey + 1) false },
    { nextKey := s.nextKey + 1,
      table := mapSet (mapEmplace s.table (s.nextKey + 1) false)
        (s.nextKey + 1) true },
    { nextKey := s.nextKey + 1,
      table := mapSet (mapSet (mapEmplace s.table (s.nextKey + 1) false)
        (s.nextKey + 1) true) (s.nextKey + 1) true },
    { nextKey := s.nextKey + 1,
      table := mapSet (mapSet (mapSet (mapEmplace s.table (s.nextKey + 1) false)
        (s.nextKey + 1) true) (s.nextKey + 1) true) (s.nextKey + 1) false },
    { nextKey := s.nextKey + 1,
      table := mapSet (mapSet (mapSet (mapSet
        (mapEmplace s.table (s.nextKey + 1) false)
        (s.nextKey + 1) true) (s.nextKey + 1) true) (s.nextKey + 1) false)
        (s.nextKey + 1) true },
    rfl, ?_, ?_, ?_, ?_⟩
  · exact TryLockImpl_of_find _ _ false e1
  · exact TryLockImpl_of_find _ _ true e2
  · exact UnlockImpl_of_find _ _ true e3
  · exact TryLockImpl_of_find _ _ false e4

/-- C3 witness: the cycle holds concretely from the initial registry. -/
theorem freshCreate_trylock_cycle_witness :
    ∃ h s1 s2 s3 s4 s5,
      CreateSpinLockImpl initRegistry = (h, s1) ∧
      TryLockImpl h s1 = LockResult.ok true s2 ∧
      TryLockImpl h s2 = LockResult.ok false s3 ∧
      UnlockImpl h s3 = LockResult.ok () s4 ∧
      TryLockImpl h s4 = LockResult.ok true s5 :=
  freshCreate_trylock_cycle initRegistry rfl

/-- A concrete registry holding one token, handle 2, currently locked. -/
def regLocked : Registry := { nextKey := 2, table := [(2, true)] }

/-- C7: for a handle present in the table, Unlock succeeds, clears that
token's flag whatever its prior state was, and changes nothing else: every
other handle keeps its flag, membership in the table is unchanged for every
handle, and the key counter is untouched. -/
theorem unlock_clears_flag_frame (s : Registry) (hdl : Int) (b : Bool)
    (hmem : RetrieveLockFromHandle s hdl = some b) :
    ∃ s2, UnlockImpl hdl s = LockResult.ok () s2 ∧
      RetrieveLockFromHandle s2 hdl = some false ∧
      (∀ k, k ≠ hdl → RetrieveLockFromHandle s2 k = RetrieveLockFromHandle s k) ∧
      (∀ k, (RetrieveLockFromHandle s2 k).isSome =
        (RetrieveLockFromHandle s k).isSome) ∧
      s2.nextKey = s.nextKey := by
  refine ⟨{ s with table := mapSet s.table hdl false },
    UnlockImpl_of_find s hdl b hmem, ?_, ?_, ?_, rfl⟩
  · exact mapFind_mapSet_self s.table hdl false b hmem
  · intro k hk
    exact mapFind_mapSet_ne s.table k hdl false hk
  · intro k
    exact mapFind_mapSet_isSome s.table k hdl false

/-- C7 witness: unlocking the locked handle 2 of regLocked. -/
theorem unlock_clears_flag_frame_witness :
    ∃ s2, UnlockImpl 2 regLocked = LockResult.ok () s2 ∧
      RetrieveLockFromHandle s2 2 = some false ∧
      (∀ k, k ≠ 2 → RetrieveLockFromHandle s2 k = RetrieveLockFromHandle regLocked k) ∧
      (∀ k, (RetrieveLockFromHandle s2 k).isSome =
        (RetrieveLockFromHandle regLocked k).isSome) ∧
      s2.nextKey = regLocked.nextKey :=
  unlock_clears_flag_frame regLocked 2 true rfl

/-- C4 counterexample: handle 5 is unknown to the initial registry, yet
DestroySpinLockImpl returns normally with the registry unchanged: erase of
a missing key is a no-op, it does not reach std::terminate. -/
theorem destroy_unknown_handle_returns :
    RetrieveLockFromHandle initRegistry 5 = none ∧
      DestroySpinLockImpl 5 initRegistry = initRegistry :=
  ⟨rfl, rfl⟩

/-- C4 amended: passing an unknown or already-destroyed handle to
DestroySpinLock does not terminate the process; the erase is a no-op and
the call returns normally with the registry unchanged (only Lock, TryLock
and Unlock are fatal on unknown handles). -/
theorem destroy_unknown_handle_noop (s : Registry) (hdl : Int)
    (habs : RetrieveLockFromHandle s hdl = none) :
    DestroySpinLockImpl hdl s = s := by
  unfold DestroySpinLockImpl
  rw [mapErase_of_absent s.table hdl habs]

/-- C4 amended witness: destroying the unknown handle 7 from regLocked
returns the state unchanged. -/
theorem destroy_unknown_handle_noop_witness :
    DestroySpinLockImpl 7 regLocked = regLocked :=
  destroy_unknown_handle_noop regLocked 7 rfl

/-! Timestamp formatting (TimeStamp.cpp). localtime is passed as an oracle
because the C standard allows it to fail, returning a null pointer; the
source dereferences the result without a null check, so a failing oracle
yields undefined behaviour, not a return value. snprintf is modelled by its
documented semantics: it returns the length of the full formatted text and
stores at most bufferSize - 1 characters plus a terminator. -/

/-- Fields of the C tm struct used by the formatters. -/
structure Tm where
  tm_sec : Int
  tm_min : Int
  tm_hour : Int
  tm_mday : Int
  tm_mon : Int
  tm_year : Int
deriving DecidableEq

/-- Decimal digit character, for d < 10. -/
def digitChar (d : Nat) : Char := Char.ofNat (48 + d)

/-- Decimal digits of n, most significant first; fuel-based so that it
reduces definitionally. -/
def natDecAux : Nat → Nat → List Char
  | 0, _ => []
  | fuel + 1, n => if n = 0 then [] else natDecAux fuel (n / 10) ++ [digitChar (n % 10)]

/-- Decimal representation of a natural number, as printf prints it. -/
def natDecChars (n : Nat) : List Char :=
  if n = 0 then [digitChar 0] else natDecAux n n

/-- printf %.Nd conversion of an int value: minus sign for negatives, then
the decimal digits zero-padded on the left to the precision. -/
def fmtIntPrec (v : Int) (prec : Nat) : List Char :=
  (if v < 0 then ['-'] else []) ++
    List.replicate (prec - (natDecChars v.natAbs).length) (digitChar 0) ++
    natDecChars v.natAbs

/-- Full text of the snprintf format of GetFormattedTimeStampString:
YYYY-MM-DD HH:MM:SS,mmm over the given tm fields and millisecond value. -/
def timeStampChars (t : Tm) (tsMSec : Int) : List Char :=
  fmtIntPrec (t.tm_year + 1900) 4 ++ ['-'] ++ fmtIntPrec (t.tm_mon + 1) 2 ++
    ['-'] ++ fmtIntPrec t.tm_mday 2 ++ [' '] ++ fmtIntPrec t.tm_hour 2 ++
    [':'] ++ fmtIntPrec t.tm_min 2 ++ [':'] ++ fmtIntPrec t.tm_sec 2 ++
    [','] ++ fmtIntPrec tsMSec 3

/-- Full text of the snprintf format of
GetFormattedTimeStampStringForFileNameNative: YYYYMMDDHHMM. -/
def fileNameChars (t : Tm) : List Char :=
  fmtIntPrec (t.tm_year + 1900) 4 ++ fmtIntPrec (t.tm_mon + 1) 2 ++
    fmtIntPrec t.tm_mday 2 ++ fmtIntPrec t.tm_hour 2 ++ fmtIntPrec t.tm_min 2

/-- snprintf semantics: the return value is the length of the full text and
the buffer receives at most bufferSize - 1 characters of it (nothing when
bufferSize is not positive). -/
def snprintfResult (full : List Char) (bufferSize : Int) : Int × List Char :=
  (Int.ofNat full.length,
    if bufferSize ≤ 0 then [] else full.take (bufferSize - 1).toNat)

/-- Outcome of a C call: undef models undefined behaviour (here the null
pointer dereference after a failed localtime); ret carries the returned
value together with the bytes stored in the caller's buffer. -/
inductive CResult (α : Type) where
  | undef : CResult α
  | ret : α → List Char → CResult α
deriving DecidableEq

/-- GetFormattedTimeStampString: splits the nanosecond timestamp with C
truncating division, converts through localtime (unchecked in the source:
a failed conversion means the null pointer is dereferenced), formats
YYYY-MM-DD HH:MM:SS,mmm with snprintf and maps a negative snprintf result
to 0. -/
def GetFormattedTimeStampString (localtime : Int → Option Tm)
    (tsNano : Int) (bufferSize : Int) : CResult Int :=
  let ts := Int.tdiv tsNano 1000000000
  let tsMSec := Int.tdiv (Int.tmod tsNano 1000000000) 1000000
  match localtime ts with
  | none => CResult.undef
  | some tptr =>
      let r := snprintfResult (timeStampChars tptr tsMSec) bufferSize
      CResult.ret (if r.1 < 0 then 0 else r.1) r.2

/-- GetFormattedTimeStampStringForFileNameNative: same structure with the
YYYYMMDDHHMM format and no millisecond component. -/
def GetFormattedTimeStampStringForFileNameNative (localtime : Int → Option Tm)
    (tsNano : Int) (bufferSize : Int) : CResult Int :=
  let ts := Int.tdiv tsNano 1000000000
  match localtime ts with
  | none => CResult.undef
  | some tptr =>
      let r := snprintfResult (fileNameChars tptr) bufferSize
      CResult.ret (if r.1 < 0 then 0 else r.1) r.2

/-- The tm value of the Unix epoch and a localtime oracle that always
succeeds with it, for concrete witnesses. -/
def epochTm : Tm :=
  { tm_sec := 0, tm_min := 0, tm_hour := 0, tm_mday := 1, tm_mon := 0, tm_year := 70 }

/-- A localtime oracle that always succeeds with the epoch tm fields. -/
def ltEpoch : Int → Option Tm := fun _ => some epochTm

/-! Inversion lemmas: behaviour of the formatters when the calendar
conversion succeeds. -/

theorem GetFormattedTimeStampString_of_some (localtime : Int → Option Tm)
    (tsNano bufferSize : Int) (t : Tm)
    (hconv : localtime (Int.tdiv tsNano 1000000000) = some t) :
    GetFormattedTimeStampString localtime tsNano bufferSize =
      CResult.ret
        (Int.ofNat (timeStampChars t
          (Int.tdiv (Int.tmod tsNano 1000000000) 1000000)).length)
        (if bufferSize ≤ 0 then []
         else (timeStampChars t
           (Int.tdiv (Int.tmod tsNano 1000000000) 1000000)).take
             (bufferSize - 1).toNat) := by
  unfold GetFormattedTimeStampString
  dsimp only
  rw [hconv]
  simp only [snprintfResult]
  rw [if_neg (show ¬ Int.ofNat (timeStampChars t
      (Int.tdiv (Int.tmod tsNano 1000000000) 1000000)).length < 0 from
    not_lt.mpr (Int.ofNat_nonneg _))]

theorem fileNameNative_of_some (localtime : Int → Option Tm)
    (tsNano bufferSize : Int) (t : Tm)
    (hconv : localtime (Int.tdiv tsNano 1000000000) = some t) :
    GetFormattedTimeStampStringForFileNameNative localtime tsNano bufferSize =
      CResult.ret (Int.ofNat (fileNameChars t).length)
        (if bufferSize ≤ 0 then []
         else (fileNameChars t).take (bufferSize - 1).toNat) := by
  unfold GetFormattedTimeStampStringForFileNameNative
  dsimp only
  rw [hconv]
  simp only [snprintfResult]
  rw [if_neg (show ¬ Int.ofNat (fileNameChars t).length < 0 from
    not_lt.mpr (Int.ofNat_nonneg _))]

/-- C5 counterexample: with a calendar conversion that fails (localtime
returning a null pointer, which the C standard permits), both formatters
dereference the null result: undefined behaviour, not a return of 0. -/
theorem calendar_failure_is_undef :
    GetFormattedTimeStampString (fun _ => none) 0 64 = CResult.undef ∧
      GetFormattedTimeStampStringForFileNameNative (fun _ => none) 0 64 =
        CResult.undef :=
  ⟨rfl, rfl⟩

/-- C5 amended: when the calendar conversion succeeds, both formatters
return normally with a nonnegative length (a negative snprintf result would
be mapped to 0), never a fatal condition; but a calendar-conversion failure
is not signaled by returning 0 - the unchecked null pointer is dereferenced,
which is undefined behaviour. -/
theorem formatters_return_length_on_success (localtime : Int → Option Tm)
    (tsNano bufferSize : Int) (t : Tm)
    (hconv : localtime (Int.tdiv tsNano 1000000000) = some t) :
    (∃ n w, GetFormattedTimeStampString localtime tsNano bufferSize =
        CResult.ret n w ∧ 0 ≤ n) ∧
    (∃ n w, GetFormattedTimeStampStringForFileNameNative localtime tsNano
        bufferSize = CResult.ret n w ∧ 0 ≤ n) := by
  constructor
  · exact ⟨_, _, GetFormattedTimeStampString_of_some localtime tsNano bufferSize t hconv,
      Int.ofNat_nonneg _⟩
  · exact ⟨_, _, fileNameNative_of_some localtime tsNano bufferSize t hconv,
      Int.ofNat_nonneg _⟩

/-- C5 amended witness: at the epoch oracle both formatters return with a
nonnegative length. -/
theorem formatters_return_length_on_success_witness :
    (∃ n w, GetFormattedTimeStampString ltEpoch 0 64 = CResult.ret n w ∧ 0 ≤ n) ∧
    (∃ n w, GetFormattedTimeStampStringForFileNameNative ltEpoch 0 64 =
        CResult.ret n w ∧ 0 ≤ n) :=
  formatters_return_length_on_success ltEpoch 0 64 epochTm rfl

/-! Character-level lemmas for the filename format. -/

theorem digitChar_ok : ∀ d : Nat, d < 10 → digitChar d ≠ ':' ∧ digitChar d ≠ ' ' := by
  decide

theorem natDecAux_chars (fuel : Nat) :
    ∀ n : Nat, ∀ c ∈ natDecAux fuel n, c ≠ ':' ∧ c ≠ ' ' := by
  induction fuel with
  | zero => intro n c hc; simp [natDecAux] at hc
  | succ fuel ih =>
      intro n c hc
      by_cases hn : n = 0
      · simp [natDecAux, hn] at hc
      · rw [natDecAux, if_neg hn] at hc
        rcases List.mem_append.mp hc with h1 | h2
        · exact ih (n / 10) c h1
        · have hc2 : c = digitChar (n % 10) := by simpa using h2
          rw [hc2]
          exact digitChar_ok (n % 10) (Nat.mod_lt n (by omega))

theorem natDecChars_chars (n : Nat) :
    ∀ c ∈ natDecChars n, c ≠ ':' ∧ c ≠ ' ' := by
  intro c hc
  unfold natDecChars at hc
  by_cases hn : n = 0
  · rw [if_pos hn] at hc
    have : c = digitChar 0 := by simpa using hc
    rw [this]
    exact digitChar_ok 0 (by omega)
  · rw [if_neg hn] at hc
    exact natDecAux_chars n n c hc

theorem fmtIntPrec_chars (v : Int) (prec : Nat) :
    ∀ c ∈ fmtIntPrec v prec, c ≠ ':' ∧ c ≠ ' ' := by
  intro c hc
  unfold fmtIntPrec at hc
  rcases List.mem_append.mp hc with h1 | h2
  · rcases List.mem_append.mp h1 with h3 | h4
    · by_cases hv : v < 0
      · rw [if_pos hv] at h3
        have : c = '-' := by simpa using h3
        rw [this]
        exact ⟨by decide, by decide⟩
      · rw [if_neg hv] at h3
        simp at h3
    · have : c = digitChar 0 := List.eq_of_mem_replicate h4
      rw [this]
      exact digitChar_ok 0 (by omega)
  · exact natDecChars_chars v.natAbs c h2

theorem fileNameChars_chars (t : Tm) :
    ∀ c ∈ fileNameChars t, c ≠ ':' ∧ c ≠ ' ' := by
  intro c hc
  unfold fileNameChars at hc
  rcases List.mem_append.mp hc with h1 | h5
  · rcases List.mem_append.mp h1 with h2 | h4
    · rcases List.mem_append.mp h2 with h3 | h3b
      · rcases List.mem_append.mp h3 with h3c | h3d
        · exact fmtIntPrec_chars _ _ c h3c
        · exact fmtIntPrec_chars _ _ c h3d
      · exact fmtIntPrec_chars _ _ c h3b
    · exact fmtIntPrec_chars _ _ c h4
  · exact fmtIntPrec_chars _ _ c h5

/-- C8: whenever GetFormattedTimeStampStringForFileNameNative returns, the
bytes stored in the caller's buffer contain no colon and no space - the
YYYYMMDDHHMM format emits only digits (and a minus sign for out-of-range
negative field values), all legal in filenames. -/
theorem fileName_output_filename_safe (localtime : Int → Option Tm)
    (tsNano bufferSize : Int) (n : Int) (w : List Char)
    (hret : GetFormattedTimeStampStringForFileNameNative localtime tsNano
      bufferSize = CResult.ret n w) :
    ':' ∉ w ∧ ' ' ∉ w := by
  cases hl : localtime (Int.tdiv tsNano 1000000000) with
  | none =>
      rw [show GetFormattedTimeStampStringForFileNameNative localtime tsNano
          bufferSize = CResult.undef by
        unfold GetFormattedTimeStampStringForFileNameNative
        dsimp only
        rw [hl]] at hret
      exact absurd hret (by simp)
  | some t =>
      rw [fileNameNative_of_some localtime tsNano bufferSize t hl] at hret
      have hw : w = if bufferSize ≤ 0 then []
          else (fileNameChars t).take (bufferSize - 1).toNat :=
        ((CResult.ret.injEq _ _ _ _).mp hret).2.symm
      subst hw
      by_cases hb : bufferSize ≤ 0
      · rw [if_pos hb]
        exact ⟨by simp, by simp⟩
      · rw [if_neg hb]
        constructor
        · intro hmem
          exact (fileNameChars_chars t ':'
            (List.take_subset _ _ hmem)).1 rfl
        · intro hmem
          exact (fileNameChars_chars t ' '
            (List.take_subset _ _ hmem)).2 rfl

/-- C8 witness: the formatted epoch filename timestamp 197001010000 holds
no colon and no space. -/
theorem fileName_output_filename_safe_witness :
    ':' ∉ ['1', '9', '7', '0', '0', '1', '0', '1', '0', '0', '0', '0'] ∧
      ' ' ∉ ['1', '9', '7', '0', '0', '1', '0', '1', '0', '0', '0', '0'] :=
  fileName_output_filename_safe ltEpoch 0 64 12
    ['1', '9', '7', '0', '0', '1', '0', '1', '0', '0', '0', '0'] (by decide)

/-- C10: when the output buffer is smaller than the full formatted text,
both formatters still return the full length (positive here since the
buffer is nonempty and still too small), while the bytes actually stored
are strictly fewer than that length, so a nonzero return does not mean the
buffer holds the complete string. -/
theorem truncated_buffer_returns_full_length (localtime : Int → Option Tm)
    (tsNano bufferSize : Int) (t : Tm)
    (hconv : localtime (Int.tdiv tsNano 1000000000) = some t)
    (hpos : 0 < bufferSize)
    (hsmallTs : bufferSize ≤ Int.ofNat (timeStampChars t
      (Int.tdiv (Int.tmod tsNano 1000000000) 1000000)).length)
    (hsmallFn : bufferSize ≤ Int.ofNat (fileNameChars t).length) :
    (∃ w, GetFormattedTimeStampString localtime tsNano bufferSize =
        CResult.ret (Int.ofNat (timeStampChars t
          (Int.tdiv (Int.tmod tsNano 1000000000) 1000000)).length) w ∧
        0 < (timeStampChars t
          (Int.tdiv (Int.tmod tsNano 1000000000) 1000000)).length ∧
        w.length < (timeStampChars t
          (Int.tdiv (Int.tmod tsNano 1000000000) 1000000)).length) ∧
    (∃ w, GetFormattedTimeStampStringForFileNameNative localtime tsNano
        bufferSize =
        CResult.ret (Int.ofNat (fileNameChars t).length) w ∧
        0 < (fileNameChars t).length ∧
        w.length < (fileNameChars t).length) := by
  have hble : ¬ bufferSize ≤ 0 := by omega
  rw [Int.ofNat_eq_natCast] at hsmallTs hsmallFn
  constructor
  · refine ⟨(timeStampChars t
      (Int.tdiv (Int.tmod tsNano 1000000000) 1000000)).take
        (bufferSize - 1).toNat, ?_, ?_, ?_⟩
    · rw [GetFormattedTimeStampString_of_some localtime tsNano bufferSize t hconv,
        if_neg hble]
    · omega
    · rw [List.length_take]
      omega
  · refine ⟨(fileNameChars t).take (bufferSize - 1).toNat, ?_, ?_, ?_⟩
    · rw [fileNameNative_of_some localtime tsNano bufferSize t hconv,
        if_neg hble]
    · omega
    · rw [List.length_take]
      omega

/-- C10 witness: a 5-byte buffer is smaller than both formatted texts of the
epoch timestamp (23 and 12 characters); both calls return the full lengths
while storing only 4 characters. -/
theorem truncated_buffer_returns_full_length_witness :
    (∃ w, GetFormattedTimeStampString ltEpoch 0 5 =
        CResult.ret (Int.ofNat (timeStampChars epochTm
          (Int.tdiv (Int.tmod 0 1000000000) 1000000)).length) w ∧
        0 < (timeStampChars epochTm
          (Int.tdiv (Int.tmod 0 1000000000) 1000000)).length ∧
        w.length < (timeStampChars epochTm
          (Int.tdiv (Int.tmod 0 1000000000) 1000000)).length) ∧
    (∃ w, GetFormattedTimeStampStringForFileNameNative ltEpoch 0 5 =
        CResult.ret (Int.ofNat (fileNameChars epochTm).length) w ∧
        0 < (fileNameChars epochTm).length ∧
        w.length < (fileNameChars epochTm).length) :=
  truncated_buffer_returns_full_length ltEpoch 0 5 epochTm rfl (by decide)
    (by decide) (by decide)

/-! Console writer (DotsRuntimePrintWrapper.cpp). The stdout stream is
modelled by the documented C stdio semantics: a buffering mode, the pending
buffer, and the bytes already delivered to the device. ConsoleWrite uses
printf with a %.*s conversion, which prints at most numBytes characters of
the argument but stops at the first NUL character (and treats a negative
precision as absent, printing up to the first NUL). -/

/-- Buffering mode of stdout: direct delivery, or fully buffered after
setvbuf(_IOFBF) with the fixed 8 KiB static buffer. -/
inductive BufMode where
  | unbuffered : BufMode
  | fullyBuffered : BufMode
deriving DecidableEq

/-- State of the stdout stream: mode, pending buffered bytes, and the bytes
already delivered to the underlying device. -/
structure Stdout where
  mode : BufMode
  buffer : List Char
  device : List Char
deriving DecidableEq

/-- A fresh stdout stream that delivers directly. -/
def initStdout : Stdout :=
  { mode := BufMode.unbuffered, buffer := [], device := [] }

/-- C string reading as done by printf %s: characters up to, excluding, the
first NUL. -/
def cstrUpToNul : List Char → List Char
  | [] => []
  | c :: rest => if c = Char.ofNat 0 then [] else c :: cstrUpToNul rest

/-- printf %.*s: at most numBytes characters, stopping at the first NUL; a
negative precision is taken as if omitted. -/
def printfPrecision (buf : List Char) (numBytes : Int) : List Char :=
  if numBytes < 0 then cstrUpToNul buf
  else cstrUpToNul (buf.take numBytes.toNat)

/-- The bytes one ConsoleWrite call hands to stdout: the %.*s conversion of
the byte buffer, then one newline character when the flag is nonzero. -/
def consoleWriteBytes (byteBuffer : List Char) (numBytes : Int)
    (newLine : Int) : List Char :=
  printfPrecision byteBuffer numBytes ++
    (if newLine ≠ 0 then [Char.ofNat 10] else [])

/-- Delivery of a byte sequence to the stdout stream: direct in unbuffered
mode; appended to the pending buffer in fully-buffered mode, with the
buffer flushed to the device once the 8192-byte capacity is reached. -/
def streamPut (st : Stdout) (bytes : List Char) : Stdout :=
  match st.mode with
  | BufMode.unbuffered => { st with device := st.device ++ bytes }
  | BufMode.fullyBuffered =>
      let b := st.buffer ++ bytes
      if 8192 ≤ b.length then { st with buffer := [], device := st.device ++ b }
      else { st with buffer := b }

/-- ConsoleWrite: printf of %.*s then the optional newline, delivered to
stdout under its current buffering mode. -/
def ConsoleWrite (st : Stdout) (byteBuffer : List Char) (numBytes : Int)
    (newLine : Int) : Stdout :=
  streamPut st (consoleWriteBytes byteBuffer numBytes newLine)

/-- BeginBatchConsoleWrite: setvbuf switches stdout to fully-buffered mode
over the static 8 KiB buffer. -/
def BeginBatchConsoleWrite (st : Stdout) : Stdout :=
  { st with mode := BufMode.fullyBuffered }

/-- Flush: fflush(stdout) delivers all pending buffered bytes. -/
def Flush (st : Stdout) : Stdout :=
  { st with buffer := [], device := st.device ++ st.buffer }

/-- EndBatchConsoleWrite is exactly Flush. -/
def EndBatchConsoleWrite (st : Stdout) : Stdout := Flush st

/-- Runs a sequence of ConsoleWrite calls, each given as byte buffer,
length, and newline flag. -/
def runConsoleWrites (calls : List (List Char × Int × Int)) (st : Stdout) :
    Stdout :=
  match calls with
  | [] => st
  | c :: rest => runConsoleWrites rest (ConsoleWrite st c.1 c.2.1 c.2.2)

theorem cstrUpToNul_of_no_nul (l : List Char) (hnul : Char.ofNat 0 ∉ l) :
    cstrUpToNul l = l := by
  induction l with
  | nil => rfl
  | cons c rest ih =>
      have hc : ¬ c = Char.ofNat 0 := by
        intro h
        exact hnul (by rw [← h]; exact List.mem_cons_self c rest)
      rw [cstrUpToNul, if_neg hc,
        ih (fun hm => hnul (List.mem_cons_of_mem c hm))]

/-- C6 counterexample: a buffer whose first 3 readable bytes contain a NUL.
printf %.*s stops at the NUL, so only one byte reaches standard output
(plus the newline), not the first 3 bytes of the buffer. -/
theorem consoleWrite_nul_byte_counterexample :
    (ConsoleWrite initStdout ['h', Char.ofNat 0, 'i'] 3 1).device =
        ['h', Char.ofNat 10] ∧
      (ConsoleWrite initStdout ['h', Char.ofNat 0, 'i'] 3 1).device ≠
        ['h', Char.ofNat 0, 'i'].take (3 : Int).toNat ++ [Char.ofNat 10] := by
  decide

/-- C6 amended: when the first n readable bytes of the buffer contain no
NUL character, ConsoleWrite on an unbuffered stdout delivers exactly those
n bytes followed by exactly one newline when the flag is nonzero and
nothing otherwise; a NUL among the first n bytes truncates the output there
(printf %.*s semantics). -/
theorem consoleWrite_writes_first_n_bytes (st : Stdout) (buf : List Char)
    (n nl : Int)
    (hmode : st.mode = BufMode.unbuffered)
    (hn : 0 ≤ n) (hreadable : n ≤ Int.ofNat buf.length)
    (hnul : Char.ofNat 0 ∉ buf.take n.toNat) :
    ConsoleWrite st buf n nl =
      { st with device := st.device ++ buf.take n.toNat ++
          (if nl ≠ 0 then [Char.ofNat 10] else []) } := by
  unfold ConsoleWrite streamPut
  rw [hmode]
  dsimp only
  unfold consoleWriteBytes printfPrecision
  rw [if_neg (not_lt.mpr hn), cstrUpToNul_of_no_nul _ hnul,
    ← List.append_assoc]

/-- C6 witness: ConsoleWrite of the 5 bytes of hello with the newline flag
set delivers exactly hello and one newline. -/
theorem consoleWrite_writes_first_n_bytes_witness :
    ConsoleWrite initStdout ['h', 'e', 'l', 'l', 'o'] 5 1 =
      { initStdout with device := initStdout.device ++
          ['h', 'e', 'l', 'l', 'o'].take (5 : Int).toNat ++
          (if (1 : Int) ≠ 0 then [Char.ofNat 10] else []) } :=
  consoleWrite_writes_first_n_bytes initStdout ['h', 'e', 'l', 'l', 'o'] 5 1
    rfl (by decide) (by decide) (by decide)

/-- Concatenation of the bytes a sequence of ConsoleWrite calls hands to
stdout. -/
def writesBytes (calls : List (List Char × Int × Int)) : List Char :=
  match calls with
  | [] => []
  | c :: rest => consoleWriteBytes c.1 c.2.1 c.2.2 ++ writesBytes rest

theorem streamPut_fullyBuffered (st : Stdout) (bytes : List Char)
    (hmode : st.mode = BufMode.fullyBuffered) :
    (streamPut st bytes).mode = BufMode.fullyBuffered ∧
      (streamPut st bytes).device ++ (streamPut st bytes).buffer =
        st.device ++ st.buffer ++ bytes := by
  unfold streamPut
  rw [hmode]
  dsimp only
  by_cases hcap : 8192 ≤ (st.buffer ++ bytes).length
  · rw [if_pos hcap]
    exact ⟨rfl, by simp⟩
  · rw [if_neg hcap]
    exact ⟨rfl, by simp⟩

theorem runConsoleWrites_fullyBuffered (calls : List (List Char × Int × Int)) :
    ∀ st : Stdout, st.mode = BufMode.fullyBuffered →
      (runConsoleWrites calls st).device ++ (runConsoleWrites calls st).buffer =
        st.device ++ st.buffer ++ writesBytes calls := by
  induction calls with
  | nil => intro st _; simp [runConsoleWrites, writesBytes]
  | cons c rest ih =>
      intro st hmode
      obtain ⟨hmode2, hput⟩ := streamPut_fullyBuffered st
        (consoleWriteBytes c.1 c.2.1 c.2.2) hmode
      have := ih (ConsoleWrite st c.1 c.2.1 c.2.2) hmode2
      rw [show runConsoleWrites (c :: rest) st =
        runConsoleWrites rest (ConsoleWrite st c.1 c.2.1 c.2.2) from rfl]
      rw [this]
      unfold ConsoleWrite
      rw [hput, writesBytes]
      simp [List.append_assoc]

theorem runConsoleWrites_unbuffered (calls : List (List Char × Int × Int)) :
    ∀ st : Stdout, st.mode = BufMode.unbuffered →
      (runConsoleWrites calls st).device = st.device ++ writesBytes calls := by
  induction calls with
  | nil => intro st _; simp [runConsoleWrites, writesBytes]
  | cons c rest ih =>
      intro st hmode
      have hstep : ConsoleWrite st c.1 c.2.1 c.2.2 =
          { mode := BufMode.unbuffered, buffer := st.buffer,
            device := st.device ++ consoleWriteBytes c.1 c.2.1 c.2.2 } := by
        unfold ConsoleWrite streamPut
        rw [hmode]
      rw [show runConsoleWrites (c :: rest) st =
        runConsoleWrites rest (ConsoleWrite st c.1 c.2.1 c.2.2) from rfl]
      rw [hstep, ih _ rfl, writesBytes]
      simp [List.append_assoc]

/-- C9: the bytes delivered to standard output by BeginBatchConsoleWrite,
any sequence of ConsoleWrite calls, then Flush, are byte-for-byte the bytes
delivered by the same sequence of ConsoleWrite calls without batching. -/
theorem batched_console_output_equals_direct
    (calls : List (List Char × Int × Int)) :
    (Flush (runConsoleWrites calls (BeginBatchConsoleWrite initStdout))).device =
      (runConsoleWrites calls initStdout).device := by
  have hb := runConsoleWrites_fullyBuffered calls
    (BeginBatchConsoleWrite initStdout) rfl
  have hu := runConsoleWrites_unbuffered calls initStdout rfl
  show (runConsoleWrites calls (BeginBatchConsoleWrite initStdout)).device ++
      (runConsoleWrites calls (BeginBatchConsoleWrite initStdout)).buffer =
    (runConsoleWrites calls initStdout).device
  rw [hb, hu]
  rfl
